import Mathlib

set_option maxRecDepth 8192
set_option maxHeartbeats 1000000

namespace Aphrodite

/-- Modelled from the spec: the region type tag of `crate::boot::MemoryType`
(the `boot` module is not among the analysed sources). Kinds are
`Free`, `Reserved`, and `HardwareSpecific(id, allocatable)`. -/
inductive MemoryType where
  | Free : MemoryType
  | Reserved : MemoryType
  | HardwareSpecific : Nat → Bool → MemoryType
deriving DecidableEq

/-- Modelled from the spec: one region of `crate::boot::MemoryMap`:
start address, byte length and kind. The memory map itself is a restartable,
ordered, finite sequence of regions, embedded as a `List MemoryRegion`;
`reset_iter`/`clone` in the source give a fresh full pass, which the list
traversal models. -/
structure MemoryRegion where
  start : Nat
  len : Nat
  mem_type : MemoryType
deriving DecidableEq

/-- The `Allocation` record of `mem.rs`: a used flag, a start address and a
byte length. -/
structure Allocation where
  used : Bool
  addr : Nat
  len : Nat
deriving DecidableEq

/-- The `AllocationHeader` of `mem.rs`: used flag, start address of the record
array (`new` stores `out.allocations` here), table capacity in bytes (`len`)
and the number of records (`num_allocations`). -/
structure AllocationHeader where
  used : Bool
  addr : Nat
  len : Nat
  num_allocations : Nat
deriving DecidableEq

/-- Byte size of the Rust `Allocation` struct, `size_of::<Allocation>()`:
a bool padded to 8 bytes plus two u64 fields. -/
def allocationSize : Nat := 24

/-- Byte size of the Rust `AllocationHeader` struct,
`size_of::<AllocationHeader>()`: a bool padded to 8 bytes plus three u64
fields. -/
def headerSize : Nat := 32

/-- Error code `FREE_MEMORY_UNAVAILABLE` (i16 -1). -/
def FREE_MEMORY_UNAVAILABLE : Int := -1

/-- Error code `TOO_MANY_ALLOCATIONS` (i16 -2). -/
def TOO_MANY_ALLOCATIONS : Int := -2

/-- Error code `ALLOCATIONS_NOT_ENOUGH_SPACE` (i16 -3). -/
def ALLOCATIONS_NOT_ENOUGH_SPACE : Int := -3

/-- Error code `EXTEND_ALLOCATION_INVALID_INDEX` (i16 -4). -/
def EXTEND_ALLOCATION_INVALID_INDEX : Int := -4

/-- Error code `EXTEND_ALLOCATION_ALLOCATION_UNUSED` (i16 -5). -/
def EXTEND_ALLOCATION_ALLOCATION_UNUSED : Int := -5

/-- Error code `EXTEND_ALLOCATION_OTHER_ALLOCATION` (i16 -6). -/
def EXTEND_ALLOCATION_OTHER_ALLOCATION : Int := -6

/-- Error code `MEMORY_NOT_ALLOCATED` (i16 -7). -/
def MEMORY_NOT_ALLOCATED : Int := -7

/-- Error code `MAYBE_MEMORY_MAP_ALLOC_UNINITALIZED` (i16 -8). -/
def MAYBE_MEMORY_MAP_ALLOC_UNINITALIZED : Int := -8

/-- Build-time configuration of `mem.rs`: `CONFIG_MEMORY_UNION_ALL`
(the `cfg!` union-all mode that disables overlap tracking) and
`CONFIG_ALLOC_PRECISION` (the `cfg_int!` step divisor of the address search). -/
structure Cfg where
  unionAll : Bool
  precision : Nat
deriving DecidableEq

/-- State of a `MemoryMapAlloc`. `headerPtr` is the integer value of the
`allocationheader` pointer; `mem i` is the 24-byte `Allocation` record stored
at byte offset `allocationSize * i` from the `allocations` pointer (every
record access in the source is at such an offset, so a slot-granular view of
that memory is faithful); uninitialised physical memory is an arbitrary
function supplied at bootstrap (the hardware gives no zeroing guarantee).
The header registers are held in `header`, as the source reads and writes
them only through `*allocationheader`. -/
structure MemoryMapAlloc where
  memory_map : List MemoryRegion
  headerPtr : Nat
  header : AllocationHeader
  mem : Nat → Allocation
  max_allocations_size : Nat

/-- Store an `Allocation` into record slot `i` (the in-place pointer write
`(*alloc) = allocation` of the source). -/
def writeSlot (t : MemoryMapAlloc) (i : Nat) (a : Allocation) : MemoryMapAlloc :=
  { t with mem := fun j => if j = i then a else t.mem j }

/-- First index `i` in `[start, start + remaining)` with `p i = true`, scanning
upward: the shape of every `allocations_iter` scan in the source. -/
def findFirstIdx (p : Nat → Bool) : Nat → Nat → Option Nat
  | _, 0 => none
  | i, r + 1 => if p i then some i else findFirstIdx p (i + 1) r

/-- `MemoryMapAlloc::check_addr`: true when the address lies in the header's
own range `[allocationheader, allocationheader + header.len)` or in the range
`[addr, addr + len)` of any of the `num_allocations` records (the used flag
is not consulted, as in the source). Union-all mode short-circuits to false. -/
def check_addr (cfg : Cfg) (t : MemoryMapAlloc) (a : Nat) : Bool :=
  if cfg.unionAll then false
  else if t.headerPtr ≤ a ∧ a < t.headerPtr + t.header.len then true
  else
    (List.range t.header.num_allocations).any fun i =>
      decide ((t.mem i).addr ≤ a ∧ a < (t.mem i).addr + (t.mem i).len)

/-- `MemoryMapAlloc::check_range`: `check_addr` on every address of
`[lo, hi)`, exactly the source's per-address loop over the Rust range. -/
def check_range (cfg : Cfg) (t : MemoryMapAlloc) (lo hi : Nat) : Bool :=
  if cfg.unionAll then false
  else (List.range (hi - lo)).any fun k => check_addr cfg t (lo + k)

/-- `MemoryMapAlloc::extend_allocation_header`: refuse (code
`EXTEND_ALLOCATION_OTHER_ALLOCATION`) when the byte range just past
`header.addr + header.len` intersects tracked memory, else grow `header.len`
by `amt`. -/
def extend_allocation_header (cfg : Cfg) (t : MemoryMapAlloc) (amt : Nat) :
    (Except Int Unit) × MemoryMapAlloc :=
  if check_range cfg t (t.header.addr + t.header.len)
      (t.header.addr + t.header.len + amt) then
    (Except.error EXTEND_ALLOCATION_OTHER_ALLOCATION, t)
  else
    (Except.ok (), { t with header := { t.header with len := t.header.len + amt } })

/-- `MemoryMapAlloc::extend_allocation`: the source guard is
`idx > num_allocations`; then the record at slot `idx` is read, rejected if
unused, rejected if growing it would run into tracked memory, else its `len`
grows by `amt` in place. -/
def extend_allocation (cfg : Cfg) (t : MemoryMapAlloc) (idx amt : Nat) :
    (Except Int Unit) × MemoryMapAlloc :=
  if t.header.num_allocations < idx then
    (Except.error EXTEND_ALLOCATION_INVALID_INDEX, t)
  else
    let r := t.mem idx
    if !r.used then (Except.error EXTEND_ALLOCATION_ALLOCATION_UNUSED, t)
    else if check_range cfg t (r.addr + r.len) (r.addr + r.len + amt) then
      (Except.error EXTEND_ALLOCATION_OTHER_ALLOCATION, t)
    else (Except.ok (), writeSlot t idx { r with len := r.len + amt })

/-- `MemoryMapAlloc::add_allocation`: overwrite the first unused record if any;
otherwise increment `num_allocations` (persistently, before any further
check), test `(*self.allocations).len` — the first data record's `len` field,
as written — against `allocationSize *` the new count, possibly fail with
`TOO_MANY_ALLOCATIONS` (without rolling the count back) or grow the header
(rolling the count back on failure), and finally write the record at byte
offset `allocationSize *` the new count, i.e. slot index equal to the new
count. -/
def add_allocation (cfg : Cfg) (t : MemoryMapAlloc) (a : Allocation) :
    (Except Int Unit) × MemoryMapAlloc :=
  match findFirstIdx (fun i => !(t.mem i).used) 0 t.header.num_allocations with
  | some j => (Except.ok (), writeSlot t j a)
  | none =>
    let t1 : MemoryMapAlloc :=
      { t with header := { t.header with num_allocations := t.header.num_allocations + 1 } }
    let n := t1.header.num_allocations
    if (t1.mem 0).len < allocationSize * n then
      if t1.max_allocations_size ≤ t1.header.len + allocationSize then
        (Except.error TOO_MANY_ALLOCATIONS, t1)
      else
        match extend_allocation_header cfg t1 allocationSize with
        | (Except.error e, t2) =>
          (Except.error e,
            { t2 with header :=
                { t2.header with num_allocations := t2.header.num_allocations - 1 } })
        | (Except.ok _, t2) => (Except.ok (), writeSlot t2 n a)
    else (Except.ok (), writeSlot t1 n a)

/-- Record matcher of `MemoryMapAlloc::deallocate`: a used record whose start
address equals the deallocated address. -/
def deallocMatch (t : MemoryMapAlloc) (a : Nat) (i : Nat) : Bool :=
  (t.mem i).used && decide ((t.mem i).addr = a)

/-- Flip record slot `j` to unused in place: the `(*allocation).used = false`
store of `deallocate`. -/
def flipAt (t : MemoryMapAlloc) (j : Nat) : MemoryMapAlloc :=
  writeSlot t j { t.mem j with used := false }

/-- `MemoryMapAlloc::deallocate`. The first component models the value left in
`LAST_MEMMAP_ERR` (reset to ok on entry). Union-all mode returns at once;
otherwise the records are scanned in index order for a used record whose
start equals the address, which is flipped to unused; if none matches the
call ends with `MEMORY_NOT_ALLOCATED`. The `allocations == null` guard of the
source cannot fire for a table built by `new` and is not modelled. -/
def deallocate (cfg : Cfg) (t : MemoryMapAlloc) (a : Nat) :
    (Except Int Unit) × MemoryMapAlloc :=
  if cfg.unionAll then (Except.ok (), t)
  else
    match findFirstIdx (deallocMatch t a) 0 t.header.num_allocations with
    | some j => (Except.ok (), flipAt t j)
    | none => (Except.error MEMORY_NOT_ALLOCATED, t)

/-- Wrapping u64 subtraction, `addr -= step` on a u64 in release mode. -/
def wsub (a b : Nat) : Nat := (a + (2 ^ 64 - b % 2 ^ 64)) % 2 ^ 64

/-- The inner while loop of `MemoryMapAlloc::allocate`: while the candidate
range overlaps tracked memory AND the candidate is misaligned AND it is still
at or above the region start, step the candidate down by `step`
(`size / CONFIG_ALLOC_PRECISION`). `fuel` bounds the iteration (the source
loop has no such bound and can fail to terminate when the step is zero);
every theorem below evaluates it with fuel to spare. -/
def stepDown (cfg : Cfg) (t : MemoryMapAlloc) (size align step rstart : Nat) :
    Nat → Nat → Nat
  | 0, a => a
  | fuel + 1, a =>
    if check_range cfg t a (a + size) && decide (a % align ≠ 0)
        && decide (rstart ≤ a) then
      stepDown cfg t size align step rstart fuel (wsub a step)
    else a

/-- Region classification of `allocate`: `Free` or
`HardwareSpecific(_, allocatable)` regions are allocatable. -/
def regionAllocatable (m : MemoryRegion) : Bool :=
  match m.mem_type with
  | MemoryType.Free => true
  | MemoryType.HardwareSpecific _ b => b
  | MemoryType.Reserved => false

/-- The region loop of `MemoryMapAlloc::allocate`, carrying the mutable `addr`
(initially 0) across iterations exactly as the source does: a region shorter
than `size` or not allocatable leaves `addr` untouched; an allocatable region
sets the candidate to its top minus `size`, runs the step-down loop, breaks
with the candidate when it is non-overlapping, aligned and at or above the
region start, and otherwise leaves the failed candidate in `addr` and goes on
to the next region. -/
def allocScan (cfg : Cfg) (t : MemoryMapAlloc) (size align fuel : Nat) :
    List MemoryRegion → Nat → Nat
  | [], addr => addr
  | m :: rest, addr =>
    if m.len < size then allocScan cfg t size align fuel rest addr
    else if regionAllocatable m then
      let a := stepDown cfg t size align (size / cfg.precision) m.start fuel
        (m.start + m.len - size)
      if !check_range cfg t a (a + size) && decide (a % align = 0)
          && decide (m.start ≤ a) then a
      else allocScan cfg t size align fuel rest a
    else allocScan cfg t size align fuel rest addr

/-- The tail of `MemoryMapAlloc::allocate` after the region loop left `addr`:
an `addr` of 0 is treated as failure (`FREE_MEMORY_UNAVAILABLE`); union-all
mode returns the address without bookkeeping; otherwise a used record for the
range is registered through `add_allocation`, whose failure is propagated. -/
def allocateFinish (cfg : Cfg) (t : MemoryMapAlloc) (size addr : Nat) :
    (Except Int Nat) × MemoryMapAlloc :=
  if addr = 0 then (Except.error FREE_MEMORY_UNAVAILABLE, t)
  else if cfg.unionAll then (Except.ok addr, t)
  else
    match add_allocation cfg t { used := true, addr := addr, len := size } with
    | (Except.ok _, t2) => (Except.ok addr, t2)
    | (Except.error e, t2) => (Except.error e, t2)

/-- `MemoryMapAlloc::allocate` (the `Allocator::allocate` impl). The first
component is the returned address or the code left in `LAST_MEMMAP_ERR`:
the region loop starting from `addr = 0` followed by the 0-sentinel check,
union-all shortcut and record registration of `allocateFinish`. The
`allocations == null` guard of the source cannot fire for a table built by
`new` and is not modelled. -/
def allocate (cfg : Cfg) (t : MemoryMapAlloc) (size align fuel : Nat) :
    (Except Int Nat) × MemoryMapAlloc :=
  allocateFinish cfg t size (allocScan cfg t size align fuel t.memory_map 0)

/-- The region scan of `MemoryMapAlloc::new`: walk the whole map (no break),
skip regions shorter than `allocationSize * 32` bytes, and for every `Free`
or `HardwareSpecific(_, true)` region overwrite the chosen
`(start, len)` — so the last qualifying region wins. -/
def newScan : List MemoryRegion → Option (Nat × Nat) → Option (Nat × Nat)
  | [], acc => acc
  | m :: rest, acc =>
    if m.len < allocationSize * 32 then newScan rest acc
    else
      match m.mem_type with
      | MemoryType.Free => newScan rest (some (m.start, m.len))
      | MemoryType.HardwareSpecific _ true => newScan rest (some (m.start, m.len))
      | _ => newScan rest acc

/-- The table `new` builds once a hosting region `(s, l)` is chosen: header at
the region start `s`, record array at `s + headerSize`, header fields
`{used := true, addr := record array, len := allocationSize * 32,
num_allocations := 1}`, initial record `{used := false, addr := 0, len := 0}`
in slot 0, remaining slots holding the pre-existing memory garbage `g`, and
`max_allocations_size` set to the region length. -/
def mkTable (s l : Nat) (g : Nat → Allocation) (map : List MemoryRegion) :
    MemoryMapAlloc :=
  { memory_map := map
    headerPtr := s
    header :=
      { used := true, addr := s + headerSize, len := allocationSize * 32
        num_allocations := 1 }
    mem := fun i => if i = 0 then { used := false, addr := 0, len := 0 } else g i
    max_allocations_size := l }

/-- `MemoryMapAlloc::new`: run the region scan; with no qualifying region fail
with `ALLOCATIONS_NOT_ENOUGH_SPACE`, else build the table in the chosen
region. `g` is the arbitrary content of the not-yet-written record memory. -/
def new (map : List MemoryRegion) (g : Nat → Allocation) :
    Except Int MemoryMapAlloc :=
  match newScan map none with
  | none => Except.error ALLOCATIONS_NOT_ENOUGH_SPACE
  | some (s, l) => Except.ok (mkTable s l g map)

/-- The lifecycle wrapper `MaybeMemoryMapAlloc`: an initialised flag and the
possibly-uninitialised inner allocator (`none` models the `MaybeUninit`
garbage of the uninitialised state). -/
structure MaybeMemoryMapAlloc where
  initalized : Bool
  alloc : Option MemoryMapAlloc

/-- `GlobalAlloc::alloc` for `MaybeMemoryMapAlloc`, as written: when
`initalized` is TRUE it records `MAYBE_MEMORY_MAP_ALLOC_UNINITALIZED` in
`LAST_MEMMAP_ERR` and returns null; otherwise it forwards to
`assume_init_ref`, which on an uninitialised slot is undefined behaviour,
modelled as `none`. -/
def maybe_global_alloc (cfg : Cfg) (w : MaybeMemoryMapAlloc)
    (size align fuel : Nat) :
    Option ((Except Int Nat) × MaybeMemoryMapAlloc) :=
  if w.initalized then
    some (Except.error MAYBE_MEMORY_MAP_ALLOC_UNINITALIZED, w)
  else
    match w.alloc with
    | none => none
    | some t =>
      let r := allocate cfg t size align fuel
      some (r.1, { w with alloc := some r.2 })

/-- `GlobalAlloc::dealloc` for `MaybeMemoryMapAlloc`, as written: the same
inverted `if self.initalized` guard as `alloc`, forwarding to the
possibly-uninitialised inner allocator when the flag is false. -/
def maybe_global_dealloc (cfg : Cfg) (w : MaybeMemoryMapAlloc) (a : Nat) :
    Option ((Except Int Unit) × MaybeMemoryMapAlloc) :=
  if w.initalized then
    some (Except.error MAYBE_MEMORY_MAP_ALLOC_UNINITALIZED, w)
  else
    match w.alloc with
    | none => none
    | some t =>
      let r := deallocate cfg t a
      some (r.1, { w with alloc := some r.2 })

/-- `Allocator::allocate` for `MaybeMemoryMapAlloc`: with the guard the right
way around (`if !self.initalized`), an uninitialised wrapper records the
diagnostic and fails, and an initialised one forwards to the engine. -/
def maybe_allocator_allocate (cfg : Cfg) (w : MaybeMemoryMapAlloc)
    (size align fuel : Nat) :
    Option ((Except Int Nat) × MaybeMemoryMapAlloc) :=
  if !w.initalized then
    some (Except.error MAYBE_MEMORY_MAP_ALLOC_UNINITALIZED, w)
  else
    match w.alloc with
    | none => none
    | some t =>
      let r := allocate cfg t size align fuel
      some (r.1, { w with alloc := some r.2 })

/-- `Allocator::deallocate` for `MaybeMemoryMapAlloc`: correct
`if !self.initalized` guard, then forwarding. -/
def maybe_allocator_deallocate (cfg : Cfg) (w : MaybeMemoryMapAlloc) (a : Nat) :
    Option ((Except Int Unit) × MaybeMemoryMapAlloc) :=
  if !w.initalized then
    some (Except.error MAYBE_MEMORY_MAP_ALLOC_UNINITALIZED, w)
  else
    match w.alloc with
    | none => none
    | some t =>
      let r := deallocate cfg t a
      some (r.1, { w with alloc := some r.2 })

/-- Qualification test of the bootstrap scan, stated from the spec's words:
at least 32 records of space, and `Free` or hardware-specific allocatable. -/
def regionQualifies (m : MemoryRegion) : Bool :=
  decide (allocationSize * 32 ≤ m.len) && regionAllocatable m

/-- Modelled from the spec: the FIRST qualifying region in map order, the
selection the spec ascribes to bootstrap. -/
def firstQualifying : List MemoryRegion → Option MemoryRegion
  | [] => none
  | m :: rest => if regionQualifies m then some m else firstQualifying rest

/-- The LAST qualifying region in map order, the selection the code actually
makes (used to state the amended bootstrap claim). -/
def lastQualifying : List MemoryRegion → Option MemoryRegion
  | [] => none
  | m :: rest =>
    match lastQualifying rest with
    | some r => some r
    | none => if regionQualifies m then some m else none

/-- Default configuration used by the concrete scenarios: overlap tracking on,
precision divisor 1. -/
def cfgD : Cfg := { unionAll := false, precision := 1 }

/-- Concrete garbage content of never-written record memory: all-used stale
records, as uninitialised RAM may well read. -/
def gA : Nat → Allocation := fun _ => { used := true, addr := 1000000, len := 1 }

/-- Concrete memory map: a single Free region of 4096 bytes at 4096. -/
def mapA : List MemoryRegion :=
  [{ start := 4096, len := 4096, mem_type := MemoryType.Free }]

/-- The table `new` builds on `mapA`: header at 4096, records at 4128. -/
def tA : MemoryMapAlloc := mkTable 4096 4096 gA mapA

/-- The table after one successful `allocate(16, 1)` on `tA` (record slot 0
becomes `{used := true, addr := 8176, len := 16}`). -/
def t1 : MemoryMapAlloc := (allocate cfgD tA 16 1 30).2

/-- Scanning an index range in which the predicate never holds finds nothing. -/
theorem findFirstIdx_eq_none (p : Nat → Bool) :
    ∀ (r i : Nat), (∀ k, k < r → p (i + k) = false) → findFirstIdx p i r = none := by
  intro r
  induction r with
  | zero => intro i _; rfl
  | succ r ih =>
    intro i h
    have h0 : p i = false := by simpa using h 0 (Nat.succ_pos r)
    simp only [findFirstIdx, h0, Bool.false_eq_true, if_false]
    refine ih (i + 1) (fun k hk => ?_)
    have heq : i + 1 + k = i + (k + 1) := by omega
    rw [heq]
    exact h (k + 1) (Nat.succ_lt_succ hk)

/-- Scanning upward from `i` finds exactly the least index satisfying the
predicate, when one lies in the scanned range. -/
theorem findFirstIdx_eq_some (p : Nat → Bool) :
    ∀ (r i j : Nat), i ≤ j → j < i + r → p j = true →
      (∀ k, i ≤ k → k < j → p k = false) → findFirstIdx p i r = some j := by
  intro r
  induction r with
  | zero => intro i j h1 h2 _ _; omega
  | succ r ih =>
    intro i j h1 h2 hp hmin
    by_cases hij : i = j
    · subst hij
      simp [findFirstIdx, hp]
    · have hlt : i < j := Nat.lt_of_le_of_ne h1 hij
      have h0 : p i = false := hmin i (Nat.le_refl i) hlt
      simp only [findFirstIdx, h0, Bool.false_eq_true, if_false]
      exact ih (i + 1) j hlt (by omega) hp (fun k hk1 hk2 => hmin k (by omega) hk2)

/-- When every allocatable region of the remaining map is shorter than the
request, the region loop of `allocate` returns its carried address unchanged. -/
theorem allocScan_unavailable (cfg : Cfg) (t : MemoryMapAlloc) (size align fuel : Nat) :
    ∀ (ms : List MemoryRegion) (addr : Nat),
      (∀ m ∈ ms, regionAllocatable m = true → m.len < size) →
      allocScan cfg t size align fuel ms addr = addr := by
  intro ms
  induction ms with
  | nil => intro addr _; rfl
  | cons m rest ih =>
    intro addr h
    have hrest : ∀ m2 ∈ rest, regionAllocatable m2 = true → m2.len < size :=
      fun m2 hm2 => h m2 (List.mem_cons_of_mem m hm2)
    by_cases hlen : m.len < size
    · simp only [allocScan, if_pos hlen]
      exact ih addr hrest
    · cases hra : regionAllocatable m with
      | true => exact absurd (h m (List.mem_cons_self m rest) hra) hlen
      | false =>
        simp only [allocScan, if_neg hlen, hra, Bool.false_eq_true, if_false]
        exact ih addr hrest

/-- A successful `allocateFinish` never hands back address 0, because 0 is the
failure sentinel tested first. -/
theorem allocateFinish_fst_ok (cfg : Cfg) (t : MemoryMapAlloc) (size addr a : Nat)
    (h : (allocateFinish cfg t size addr).1 = Except.ok a) : a ≠ 0 := by
  intro ha
  subst ha
  unfold allocateFinish at h
  by_cases h0 : addr = 0
  · rw [if_pos h0] at h
    simp at h
  · rw [if_neg h0] at h
    by_cases hu : cfg.unionAll = true
    · rw [if_pos hu] at h
      simp at h
      exact h0 h
    · rw [if_neg hu] at h
      rcases hadd : add_allocation cfg t { used := true, addr := addr, len := size }
        with ⟨r, t2⟩
      rw [hadd] at h
      cases r with
      | ok u =>
        simp at h
        exact h0 h
      | error e => simp at h

/-- The bootstrap region scan computes the last qualifying region of the map
(its start and length), falling back to the accumulator when none qualifies. -/
theorem newScan_lastQualifying :
    ∀ (ms : List MemoryRegion) (acc : Option (Nat × Nat)),
      newScan ms acc =
        match lastQualifying ms with
        | some m => some (m.start, m.len)
        | none => acc := by
  intro ms
  induction ms with
  | nil => intro acc; rfl
  | cons m rest ih =>
    intro acc
    by_cases hlen : m.len < allocationSize * 32
    · have hq : regionQualifies m = false := by
        have hnot : ¬(allocationSize * 32 ≤ m.len) := by omega
        simp [regionQualifies, hnot]
      simp only [newScan, if_pos hlen, lastQualifying, hq]
      rw [ih acc]
      cases hr : lastQualifying rest <;> simp [hr]
    · have hle : allocationSize * 32 ≤ m.len := by omega
      cases hmt : m.mem_type with
      | Free =>
        have hq : regionQualifies m = true := by
          simp [regionQualifies, hle, regionAllocatable, hmt]
        simp only [newScan, if_neg hlen, hmt, lastQualifying, hq]
        rw [ih (some (m.start, m.len))]
        cases hr : lastQualifying rest <;> simp [hr]
      | Reserved =>
        have hq : regionQualifies m = false := by
          simp [regionQualifies, regionAllocatable, hmt]
        simp only [newScan, if_neg hlen, hmt, lastQualifying, hq]
        rw [ih acc]
        cases hr : lastQualifying rest <;> simp [hr]
      | HardwareSpecific id b =>
        cases b with
        | true =>
          have hq : regionQualifies m = true := by
            simp [regionQualifies, hle, regionAllocatable, hmt]
          simp only [newScan, if_neg hlen, hmt, lastQualifying, hq]
          rw [ih (some (m.start, m.len))]
          cases hr : lastQualifying rest <;> simp [hr]
        | false =>
          have hq : regionQualifies m = false := by
            simp [regionQualifies, regionAllocatable, hmt]
          simp only [newScan, if_neg hlen, hmt, lastQualifying, hq]
          rw [ih acc]
          cases hr : lastQualifying rest <;> simp [hr]

/-- Claim C1: for every sequence of successful allocate calls with overlap
tracking enabled, the returned address ranges are pairwise disjoint. The code
violates this: on the one-region map `mapA`, the first `allocate(16, 1)`
returns 8176, and a second `allocate(16, 1)` also succeeds and returns the
very same address 8176 — the rejected candidate of the region search falls
through the loop in the mutable `addr` and is returned without its overlap
check having passed. This theorem evaluates the model at that failing input
(the third conjunct pins `tA` as the table `new` bootstraps on `mapA`). -/
theorem thm_C1 :
    new mapA gA = Except.ok tA ∧
    (allocate cfgD tA 16 1 30).1 = Except.ok 8176 ∧
    (allocate cfgD t1 16 1 30).1 = Except.ok 8176 :=
  ⟨rfl, rfl, rfl⟩

/-- Claim C2: every address returned by a successful allocate satisfies the
requested alignment. The code violates this: on `mapA`, `allocate(16, 4096)`
succeeds and returns 8176, which is not 4096-aligned — the misaligned
candidate falls through the region loop in the mutable `addr` and is
returned although the acceptance test had rejected it. -/
theorem thm_C2 :
    (allocate cfgD tA 16 4096 30).1 = Except.ok 8176 ∧ ¬(8176 % 4096 = 0) :=
  ⟨rfl, by decide⟩

/-- Claim C3: an allocate request larger than every allocatable region fails
with `FREE_MEMORY_UNAVAILABLE` and leaves the allocation table exactly as it
was. Confirmed: such regions are skipped before the candidate address is ever
assigned, so the loop ends with the 0 sentinel and the failure path returns
the table untouched. -/
theorem thm_C3 (cfg : Cfg) (t : MemoryMapAlloc) (size align fuel : Nat)
    (h : ∀ m ∈ t.memory_map, regionAllocatable m = true → m.len < size) :
    allocate cfg t size align fuel = (Except.error FREE_MEMORY_UNAVAILABLE, t) := by
  unfold allocate
  rw [allocScan_unavailable cfg t size align fuel t.memory_map 0 h]
  rfl

/-- Witness for C3: on `tA` (whose only region is 4096 bytes long) a request
of 5000 bytes fails with `FREE_MEMORY_UNAVAILABLE` and returns the table
unchanged. -/
theorem wit_C3 :
    (∀ m ∈ tA.memory_map, regionAllocatable m = true → m.len < 5000) ∧
    allocate cfgD tA 5000 1 30 = (Except.error FREE_MEMORY_UNAVAILABLE, tA) :=
  ⟨by decide, thm_C3 cfgD tA 5000 1 30 (by decide)⟩

/-- Claim C4: deallocate with overlap tracking on flips the first used record
whose start equals the address and succeeds; with no matching record it fails
with `MEMORY_NOT_ALLOCATED`; in union-all mode it is a no-op success.
Confirmed against the record scan of the source. -/
theorem thm_C4 (cfg : Cfg) (t : MemoryMapAlloc) (a : Nat) :
    (cfg.unionAll = true → deallocate cfg t a = (Except.ok (), t)) ∧
    (cfg.unionAll = false →
      (∀ j, j < t.header.num_allocations → deallocMatch t a j = true →
        (∀ k, k < j → deallocMatch t a k = false) →
        deallocate cfg t a = (Except.ok (), flipAt t j)) ∧
      ((∀ i, i < t.header.num_allocations → deallocMatch t a i = false) →
        deallocate cfg t a = (Except.error MEMORY_NOT_ALLOCATED, t))) := by
  refine ⟨fun hu => ?_, fun hu => ⟨fun j hj hm hmin => ?_, fun hnone => ?_⟩⟩
  · unfold deallocate
    rw [if_pos hu]
  · have hf : findFirstIdx (deallocMatch t a) 0 t.header.num_allocations = some j :=
      findFirstIdx_eq_some (deallocMatch t a) t.header.num_allocations 0 j
        (Nat.zero_le j) (by omega) hm (fun k _ hk => hmin k hk)
    unfold deallocate
    rw [if_neg (by simp [hu]), hf]
  · have hf : findFirstIdx (deallocMatch t a) 0 t.header.num_allocations = none :=
      findFirstIdx_eq_none (deallocMatch t a) t.header.num_allocations 0
        (fun k hk => by simpa using hnone k hk)
    unfold deallocate
    rw [if_neg (by simp [hu]), hf]

/-- Witness for C4: on `t1` (one used record `{8176, 16}` in slot 0),
deallocating 8176 flips slot 0 and succeeds. -/
theorem wit_C4 :
    cfgD.unionAll = false ∧ 0 < t1.header.num_allocations ∧
    deallocMatch t1 8176 0 = true ∧
    deallocate cfgD t1 8176 = (Except.ok (), flipAt t1 0) :=
  ⟨rfl, by decide, by decide,
    ((thm_C4 cfgD t1 8176).2 rfl).1 0 (by decide) (by decide)
      (fun k hk => absurd hk (Nat.not_lt_zero k))⟩

/-- The uninitialised lifecycle wrapper: flag down, inner slot uninitialised. -/
def wU : MaybeMemoryMapAlloc := { initalized := false, alloc := none }

/-- An initialised lifecycle wrapper holding the engine bootstrapped on `mapA`. -/
def wI : MaybeMemoryMapAlloc := { initalized := true, alloc := some tA }

/-- Claim C5: every allocate/deallocate made through the lifecycle wrapper
before initialisation fails immediately, records the uninitialised
diagnostic, and touches nothing. The `Allocator` impl does exactly that
(first two conjuncts), but the `GlobalAlloc` impl's guard is inverted
(`if self.initalized` instead of `if !self.initalized`): before
initialisation it forwards to the uninitialised inner allocator — undefined
behaviour, modelled as `none`, with no diagnostic recorded (third and fourth
conjuncts) — while after initialisation every call fails with the
uninitialised diagnostic (last two conjuncts). -/
theorem thm_C5 :
    maybe_allocator_allocate cfgD wU 16 1 30 =
      some (Except.error MAYBE_MEMORY_MAP_ALLOC_UNINITALIZED, wU) ∧
    maybe_allocator_deallocate cfgD wU 8176 =
      some (Except.error MAYBE_MEMORY_MAP_ALLOC_UNINITALIZED, wU) ∧
    maybe_global_alloc cfgD wU 16 1 30 = none ∧
    maybe_global_dealloc cfgD wU 8176 = none ∧
    Option.map Prod.fst (maybe_global_alloc cfgD wI 16 1 30) =
      some (Except.error MAYBE_MEMORY_MAP_ALLOC_UNINITALIZED) ∧
    Option.map Prod.fst (maybe_global_dealloc cfgD wI 8176) =
      some (Except.error MAYBE_MEMORY_MAP_ALLOC_UNINITALIZED) :=
  ⟨rfl, rfl, rfl, rfl, rfl, rfl⟩

/-- A memory map with two qualifying Free regions, at 4096 and at 16384. -/
def mapB : List MemoryRegion :=
  [{ start := 4096, len := 4096, mem_type := MemoryType.Free },
   { start := 16384, len := 4096, mem_type := MemoryType.Free }]

/-- The table `new` actually builds on `mapB`: hosted in the LAST qualifying
region, at 16384. -/
def tB : MemoryMapAlloc := mkTable 16384 4096 gA mapB

/-- Counterexample for C6: the claim says bootstrap selects the FIRST
qualifying region. On `mapB` the first qualifying region starts at 4096, yet
`new` places the header at 16384, the start of the last qualifying region. -/
theorem cex_C6 :
    firstQualifying mapB =
      some { start := 4096, len := 4096, mem_type := MemoryType.Free } ∧
    Except.map (fun t => t.headerPtr) (new mapB gA) = Except.ok 16384 ∧
    (16384 : Nat) ≠ 4096 :=
  ⟨by decide, rfl, by decide⟩

/-- Claim C6 as amended: bootstrap selects, among regions that are Free or
hardware-specific allocatable and at least 32 records long, the LAST such
region in map order, placing the header at that region's start and the
record array immediately after the header (`headerSize` bytes further). -/
theorem thm_C6 (map : List MemoryRegion) (g : Nat → Allocation)
    (t : MemoryMapAlloc) (h : new map g = Except.ok t) :
    ∃ m, lastQualifying map = some m ∧ t.headerPtr = m.start ∧
      t.header.addr = m.start + headerSize ∧ t.max_allocations_size = m.len ∧
      t.header.num_allocations = 1 := by
  unfold new at h
  rw [newScan_lastQualifying map none] at h
  cases hr : lastQualifying map with
  | none =>
    rw [hr] at h
    exact absurd h (by simp)
  | some m =>
    rw [hr] at h
    simp only [Except.ok.injEq] at h
    subst h
    exact ⟨m, rfl, rfl, rfl, rfl, rfl⟩

/-- Witness for C6 (amended): on `mapB` bootstrap succeeds with the table
`tB`, hosted at the start of the last qualifying region. -/
theorem wit_C6 :
    ∃ m, lastQualifying mapB = some m ∧ tB.headerPtr = m.start ∧
      tB.header.addr = m.start + headerSize ∧ tB.max_allocations_size = m.len ∧
      tB.header.num_allocations = 1 :=
  thm_C6 mapB gA tB rfl

/-- The record added by the C7 failing trace. -/
def a7 : Allocation := { used := true, addr := 7000, len := 16 }

/-- Table after adding `a7` to `t1`, whose single record slot is in use. -/
def t7 : MemoryMapAlloc := (add_allocation cfgD t1 a7).2

/-- Claim C7: with no free slot, `add_allocation` increments the count, grows
only when the new slot would exceed `capacity_bytes`, and writes the record
at the slot implied by the new count, so reading that slot yields the added
record. The code violates this twice on the trace `add a7` to `t1`
(count 1, slot 0 used): the new count is 2, so the implied slot is index 1,
but slot 1 still holds the stale pre-boot garbage and the record lands one
slot past, at index 2; and the table grew (capacity 768 became 792) although
two records need only 48 of the 768 capacity bytes, because the growth test
reads the first record's `len` field instead of the header capacity. -/
theorem thm_C7 :
    (add_allocation cfgD t1 a7).1 = Except.ok () ∧
    t7.header.num_allocations = 2 ∧
    t7.mem 2 = a7 ∧
    t7.mem 1 ≠ a7 ∧
    t7.mem 1 = { used := true, addr := 1000000, len := 1 } ∧
    t7.header.len = allocationSize * 32 + allocationSize ∧
    2 * allocationSize ≤ allocationSize * 32 :=
  ⟨rfl, rfl, by decide, by decide, by decide, rfl, by decide⟩

/-- The record repeatedly added by the C8 failing trace. Its `len` of 1000 is
what the buggy growth test of `add_allocation` reads in place of the header
capacity. -/
def a8 : Allocation := { used := true, addr := 100000, len := 1000 }

/-- Iterate `add_allocation` with `a8`. -/
def addMany : Nat → MemoryMapAlloc → MemoryMapAlloc
  | 0, t => t
  | k + 1, t => addMany k (add_allocation cfgD t a8).2

/-- Thirty-three `add_allocation` calls on the freshly bootstrapped `tA`. -/
def t8 : MemoryMapAlloc := addMany 33 tA

/-- Claim C8: `record_count * record_size <= capacity_bytes` holds after
bootstrap and across every operation. The code violates it: after 33
`add_allocation` calls on `tA` the count is 33 while the capacity is still
the initial 768 bytes (33 * 24 = 792 > 768), because the growth test reads
the first record's `len` (1000 here) instead of the header capacity and so
never grows the table. -/
theorem thm_C8 :
    t8.header.num_allocations = 33 ∧
    t8.header.len = allocationSize * 32 ∧
    ¬(t8.header.num_allocations * allocationSize ≤ t8.header.len) :=
  ⟨by decide, by decide, by decide⟩

/-- Claim C9: every index with `idx >= record_count` makes `extend_allocation`
fail with `EXTEND_ALLOCATION_INVALID_INDEX` and leaves everything unchanged.
The code's guard is `idx > num_allocations`, so the boundary index
`idx = record_count` slips through: on `t1` (one record), extending index 1
succeeds and mutates the stale slot just past the table instead of failing. -/
theorem thm_C9 :
    t1.header.num_allocations = 1 ∧
    (extend_allocation cfgD t1 1 4).1 = Except.ok () ∧
    (extend_allocation cfgD t1 1 4).2.mem 1 ≠ t1.mem 1 :=
  ⟨rfl, rfl, by decide⟩

/-- Memory map for the C10 scenario: a small Free region at address 0 (too
small to host the table) plus the table-hosting region of `mapA`. -/
def map10 : List MemoryRegion :=
  [{ start := 0, len := 100, mem_type := MemoryType.Free },
   { start := 4096, len := 4096, mem_type := MemoryType.Free }]

/-- The table `new` builds on `map10` (hosted at 4096). -/
def t10 : MemoryMapAlloc := mkTable 4096 4096 gA map10

/-- Claim C10: a successful allocate never returns address 0, and a search
whose final candidate is 0 — even a candidate meeting the size, alignment
and overlap constraints — is reported as `FREE_MEMORY_UNAVAILABLE`.
Confirmed: the first conjunct is universal; the rest evaluate the concrete
scenario on `map10`, where `allocate(100, 1)` finds candidate 0 in the
region at address 0, the candidate range `[0, 100)` is free of tracked
allocations and trivially aligned, and the call nevertheless fails with
`FREE_MEMORY_UNAVAILABLE` because 0 is the failure sentinel. -/
theorem thm_C10 :
    (∀ (cfg : Cfg) (t : MemoryMapAlloc) (size align fuel a : Nat),
      (allocate cfg t size align fuel).1 = Except.ok a → a ≠ 0) ∧
    (new map10 gA = Except.ok t10 ∧
     check_range cfgD t10 0 100 = false ∧
     (allocate cfgD t10 100 1 30).1 = Except.error FREE_MEMORY_UNAVAILABLE) :=
  ⟨fun cfg t size align fuel a h => allocateFinish_fst_ok cfg t size _ a h,
   rfl, by decide, rfl⟩

/-- Witness for C10: applying the universal part at the concrete success of
`allocate(16, 1)` on `tA`, whose returned address 8176 is nonzero. -/
theorem wit_C10 :
    (allocate cfgD tA 16 1 30).1 = Except.ok 8176 ∧ (8176 : Nat) ≠ 0 :=
  ⟨rfl, thm_C10.1 cfgD tA 16 1 30 8176 rfl⟩

end Aphrodite
